import Mathlib

/-!
Verification development for the frequency-domain asset-analysis engine
(`freq_domain_asset_analysis.py`).

The Python code is shallowly embedded: exact sample values are modelled as
rationals (`ℚ`); values that the code obtains through a real square root
(standard deviations, Pearson correlations, annualized volatilities) live in
`ℝ`.  A Python float `NaN` is modelled as `none` in `Option ℝ`.

The numerical kernels that come from SciPy/NumPy/statsmodels rather than from
the repository itself — Butterworth design plus `filtfilt`, the periodogram
PSD values, and the STL fit — are abstracted as function parameters
(`FilterCore`, the `pgram` argument, `STLFit`): every theorem below holds for
all possible outputs of those kernels, so in particular for the concrete
library ones.  The control flow surrounding them (normalisation, clamping,
degenerate-band policy, exception fallbacks, masking, report assembly) is
translated statement by statement from the source.
-/

/-- Arithmetic mean of a list, `np.mean` / `pd.Series.mean` on exact values.
For the empty list `ℚ` gives `0 / 0 = 0`. -/
def listMean (xs : List ℚ) : ℚ := xs.sum / xs.length

/-- The list recentred at its mean (used by `np.std` and `np.corrcoef`). -/
def demean (xs : List ℚ) : List ℚ := xs.map (fun x => x - listMean xs)

/-- Sum of squared deviations from the mean. -/
def sqSum (xs : List ℚ) : ℚ := ((demean xs).map (fun x => x ^ 2)).sum

/-- Sum of products of deviations of two lists (the unnormalised covariance;
`np.corrcoef`'s normalisation factors cancel in the correlation ratio). -/
def covSum (xs ys : List ℚ) : ℚ :=
  (List.zipWith (fun a b => a * b) (demean xs) (demean ys)).sum

/-- Population variance, `np.std(xs)**2` (NumPy default `ddof=0`). -/
def listVar (xs : List ℚ) : ℚ := sqSum xs / xs.length

/-- `np.std`: the population standard deviation, a real number. -/
noncomputable def stdR (xs : List ℚ) : ℝ := Real.sqrt ((listVar xs : ℚ) : ℝ)

/-- `np.corrcoef(xs, ys)[0, 1]`: the Pearson correlation coefficient.
`none` models the float `NaN` produced by the `0/0` that numpy computes when
either series has zero variance.  Writing the correlation with the
unnormalised sums is exact: numpy's common `1/(n-1)` factors cancel. -/
noncomputable def corrcoef (xs ys : List ℚ) : Option ℝ :=
  if sqSum xs = 0 ∨ sqSum ys = 0 then none
  else some (((covSum xs ys : ℚ) : ℝ) /
    (Real.sqrt ((sqSum xs : ℚ) : ℝ) * Real.sqrt ((sqSum ys : ℚ) : ℝ)))

/-- `nyquist = 0.5` in `zero_phase_filter` (normalised Nyquist frequency). -/
def nyquist : ℚ := 1 / 2

/-- `min(max(x, 0.001), 0.95)`: the clamp applied to normalised cutoff
frequencies in `zero_phase_filter`. -/
def clampNorm (x : ℚ) : ℚ := min (max x (1 / 1000)) (19 / 20)

/-- Abstraction of the SciPy numerics inside `zero_phase_filter`'s `try`
block: `signal.butter` (order 3) followed by `signal.filtfilt`, for each of
the three filter types.  A result of `none` models the `except` case — any
exception raised by design or application of the filter. -/
structure FilterCore where
  lowpass : ℚ → List ℚ → Option (List ℚ)
  highpass : ℚ → List ℚ → Option (List ℚ)
  bandpass : ℚ → ℚ → List ℚ → Option (List ℚ)

/-- `FrequencyDomainAnalyzer.zero_phase_filter`.  `none` bounds select
low-pass / high-pass / the identity copy; both bounds present select
band-pass with the degenerate-band zero policy; a caught exception yields
`np.zeros_like(data)`, i.e. an all-zero list of the input's length. -/
def zero_phase_filter (fc : FilterCore) (data : List ℚ)
    (low_freq high_freq : Option ℚ) : List ℚ :=
  match low_freq, high_freq with
  | none, none => data
  | none, some hf =>
    match fc.lowpass (clampNorm (hf / nyquist)) data with
    | some out => out
    | none => List.replicate data.length 0
  | some lf, none =>
    match fc.highpass (clampNorm (lf / nyquist)) data with
    | some out => out
    | none => List.replicate data.length 0
  | some lf, some hf =>
    let low_normalized := clampNorm (lf / nyquist)
    let high_normalized := clampNorm (hf / nyquist)
    if high_normalized ≤ low_normalized then List.replicate data.length 0
    else
      match fc.bandpass low_normalized high_normalized data with
      | some out => out
      | none => List.replicate data.length 0

/-- The daily (`'D'`) frequency-band table of `FrequencyDomainAnalyzer`:
name, lower bound, upper bound (normalised frequency). -/
def freqBandsD : List (String × ℚ × ℚ) :=
  [("short_term", 1 / 25, 1 / 2),
   ("medium_term", 1 / 125, 1 / 25),
   ("business_cycle", 1 / 500, 1 / 125),
   ("long_term", 0, 1 / 500)]

/-- The monthly (`'M'`) frequency-band table. -/
def freqBandsM : List (String × ℚ × ℚ) :=
  [("short_term", 1 / 3, 1 / 2),
   ("medium_term", 1 / 12, 1 / 3),
   ("business_cycle", 1 / 60, 1 / 12),
   ("long_term", 0, 1 / 60)]

/-- One band's filtered series in `decompose_frequency_bands`: the
`long_term` band is low-passed at its upper bound, every other band is
band-passed between its two bounds. -/
def bandFiltered (fc : FilterCore) (b : String × ℚ × ℚ) (data : List ℚ) :
    List ℚ :=
  if b.1 = "long_term" then zero_phase_filter fc data none (some b.2.2)
  else zero_phase_filter fc data (some b.2.1) (some b.2.2)

/-- `FrequencyDomainAnalyzer.decompose_frequency_bands`: the band-name-keyed
dictionary of filtered series. -/
def decompose_frequency_bands (fc : FilterCore) (bands : List (String × ℚ × ℚ))
    (returns : List ℚ) : List (String × List ℚ) :=
  bands.map (fun b => (b.1, bandFiltered fc b returns))

/-- One band entry of `calculate_correlation_spectral`: the source computes
`std1 = np.std(filtered1)`, `std2 = np.std(filtered2)` and tests
`std1 > 1e-10 and std2 > 1e-10`; since a standard deviation is the square
root of the (nonnegative) variance, that test is written here as the exact
equivalent `listVar > 1e-20` (see `stdR_eps_iff` below).  Inside the branch a
`NaN` correlation is mapped to `0.0`; the degenerate branch returns `0.0`. -/
noncomputable def bandCorrEntry (f1 f2 : List ℚ) : ℝ :=
  if 1 / 10 ^ 20 < listVar f1 ∧ 1 / 10 ^ 20 < listVar f2 then
    match corrcoef f1 f2 with
    | some c => c
    | none => 0
  else 0

/-- The dictionary returned by `calculate_correlation_spectral`: the four
band entries (Python floats that the code never leaves as `NaN`) and the
`'total'` entry (which can be `NaN`, hence `Option ℝ`). -/
structure CorrReport where
  bands : List (String × ℝ)
  total : Option ℝ

/-- `FrequencyDomainAnalyzer.calculate_correlation_spectral`: decompose both
series over the band table, correlate the per-band filtered pairs with the
epsilon/NaN policy of `bandCorrEntry`, and set `'total'` to the raw
`np.corrcoef` of the two inputs (no NaN check on this one in the source). -/
noncomputable def calculate_correlation_spectral (fc : FilterCore)
    (bands : List (String × ℚ × ℚ)) (returns1 returns2 : List ℚ) : CorrReport :=
  let decomposed1 := decompose_frequency_bands fc bands returns1
  let decomposed2 := decompose_frequency_bands fc bands returns2
  { bands := bands.map (fun b =>
      (b.1, bandCorrEntry ((decomposed1.lookup b.1).getD [])
        ((decomposed2.lookup b.1).getD []))),
    total := corrcoef returns1 returns2 }

/-- The one-sided frequency grid of `scipy.signal.periodogram` for a length-n
real input at unit sampling rate: `k / n` for `k = 0 .. n / 2`. -/
def periodogramFreqs (n : ℕ) : List ℚ :=
  (List.range (n / 2 + 1)).map (fun (k : ℕ) => (k : ℚ) / (n : ℚ))

/-- The boolean frequency mask of one band in `calculate_volatility_spectral`:
`(freqs >= 0) & (freqs <= high)` for `long_term`, else
`(freqs >= low) & (freqs <= high)` — both comparisons inclusive, exactly as
in the source. -/
def bandMask (b : String × ℚ × ℚ) (f : ℚ) : Bool :=
  if b.1 = "long_term" then decide (0 ≤ f ∧ f ≤ b.2.2)
  else decide (b.2.1 ≤ f ∧ f ≤ b.2.2)

/-- `np.trapz(ys, xs)` over a list of `(x, y)` points: trapezoidal
integration, `0` for fewer than two points. -/
def trapzPairs : List (ℚ × ℚ) → ℚ
  | (x1, y1) :: (x2, y2) :: rest =>
    (x2 - x1) * (y1 + y2) / 2 + trapzPairs ((x2, y2) :: rest)
  | _ => 0

/-- One band's unannualised volatility in `calculate_volatility_spectral`:
select the masked `(freq, psd)` bins, and if any remain take
`sqrt(abs(np.trapz(psd[mask], freqs[mask])))`, else `0.0`. -/
noncomputable def bandStd (b : String × ℚ × ℚ) (freqs psd : List ℚ) : ℝ :=
  let pts := (freqs.zip psd).filter (fun p => bandMask b p.1)
  if pts = [] then 0
  else Real.sqrt |((trapzPairs pts : ℚ) : ℝ)|

/-- The annualisation scalar: the source multiplies a volatility by
`sqrt(252)` when annualising daily data and by `sqrt(12)` when annualising
monthly data, and leaves it unscaled otherwise. -/
noncomputable def annualizeFactor (sampling_freq : String) (annualize : Bool) : ℝ :=
  if annualize = true ∧ sampling_freq = "D" then Real.sqrt 252
  else if annualize = true ∧ sampling_freq = "M" then Real.sqrt 12
  else 1

/-- The dictionary returned by `calculate_volatility_spectral`: the four band
volatilities plus the time-domain `'total'` volatility. -/
structure VolReport where
  bands : List (String × ℝ)
  total : ℝ

/-- `FrequencyDomainAnalyzer.calculate_volatility_spectral`: periodogram PSD
(the PSD values themselves are the abstract `pgram data`), per-band
trapezoidal integration under the band mask, absolute value, square root,
annualisation; `'total'` is the annualised `np.std` of the raw series. -/
noncomputable def calculate_volatility_spectral (pgram : List ℚ → List ℚ)
    (sampling_freq : String) (bands : List (String × ℚ × ℚ))
    (annualize : Bool) (returns : List ℚ) : VolReport :=
  let freqs := periodogramFreqs returns.length
  let psd := pgram returns
  { bands := bands.map (fun b =>
      (b.1, bandStd b freqs psd * annualizeFactor sampling_freq annualize)),
    total := stdR returns * annualizeFactor sampling_freq annualize }

/-- `FrequencyDomainAnalyzer.calculate_expected_return`: the mean of the
series, times `252` for annualised daily data, times `12` for annualised
monthly data, unscaled for any other sampling frequency. -/
def calculate_expected_return (sampling_freq : String) (annualize : Bool)
    (returns : List ℚ) : ℚ :=
  let total_mean := listMean returns
  if annualize = true ∧ sampling_freq = "D" then total_mean * 252
  else if annualize = true ∧ sampling_freq = "M" then total_mean * 12
  else total_mean

/-- The state set up by `FrequencyDomainAnalyzer.__init__`: the constructor
stores `sampling_freq` unconditionally, but assigns `self.freq_bands` only
inside the `'D'` and `'M'` branches; `none` models the attribute never having
been defined. -/
structure Analyzer where
  sampling_freq : String
  freq_bands : Option (List (String × ℚ × ℚ))

/-- `FrequencyDomainAnalyzer.__init__(sampling_frequency)`. -/
def FrequencyDomainAnalyzer_init (sampling_frequency : String) : Analyzer :=
  { sampling_freq := sampling_frequency,
    freq_bands :=
      if sampling_frequency = "D" then some freqBandsD
      else if sampling_frequency = "M" then some freqBandsM
      else none }

/-- The message of the `AttributeError` raised by Python when a method reads
the missing `self.freq_bands`. -/
def attrError : String := "AttributeError: freq_bands"

/-- `decompose_frequency_bands` as invoked on an analyzer instance: reading
`self.freq_bands` raises `AttributeError` when the constructor never set
it. -/
def decompose_op (fc : FilterCore) (a : Analyzer) (returns : List ℚ) :
    Except String (List (String × List ℚ)) :=
  match a.freq_bands with
  | none => Except.error attrError
  | some bands => Except.ok (decompose_frequency_bands fc bands returns)

/-- `calculate_volatility_spectral` as invoked on an analyzer instance. -/
noncomputable def volatility_op (pgram : List ℚ → List ℚ) (a : Analyzer)
    (annualize : Bool) (returns : List ℚ) : Except String VolReport :=
  match a.freq_bands with
  | none => Except.error attrError
  | some bands =>
    Except.ok (calculate_volatility_spectral pgram a.sampling_freq bands
      annualize returns)

/-- `calculate_correlation_spectral` as invoked on an analyzer instance
(it reads `self.freq_bands` through `decompose_frequency_bands`). -/
noncomputable def correlation_op (fc : FilterCore) (a : Analyzer)
    (returns1 returns2 : List ℚ) : Except String CorrReport :=
  match a.freq_bands with
  | none => Except.error attrError
  | some bands =>
    Except.ok (calculate_correlation_spectral fc bands returns1 returns2)

/-- One row of the summary table built by `generate_summary_report`:
expected return, total volatility, Sharpe, and the band-volatility
dictionary flattened into the row. -/
structure SummaryRow where
  expectedReturn : ℚ
  volatility : ℝ
  sharpe : ℝ
  bandVols : List (String × ℝ)

/-- The row `generate_summary_report` builds for one asset once the band
table exists.  The source guards the Sharpe ratio with
`vol['total'] > 0`; since `vol['total'] = np.std(data) * (positive scalar)`,
that test is written here as the exact equivalent `0 < listVar xs`
(see `volTotal_pos_iff` below). -/
noncomputable def summaryRowPure (pgram : List ℚ → List ℚ)
    (sampling_freq : String) (bands : List (String × ℚ × ℚ)) (xs : List ℚ) :
    SummaryRow :=
  let vol := calculate_volatility_spectral pgram sampling_freq bands true xs
  let exp_ret := calculate_expected_return sampling_freq true xs
  { expectedReturn := exp_ret,
    volatility := vol.total,
    sharpe := if 0 < listVar xs then (exp_ret : ℝ) / vol.total else 0,
    bandVols := vol.bands }

/-- One iteration of the per-asset loop of `generate_summary_report`
(expected return, then the volatility call that reads `self.freq_bands`). -/
noncomputable def summaryRowOp (pgram : List ℚ → List ℚ) (a : Analyzer)
    (xs : List ℚ) : Except String SummaryRow :=
  match a.freq_bands with
  | none => Except.error attrError
  | some bands => Except.ok (summaryRowPure pgram a.sampling_freq bands xs)

/-- The per-asset loop of `generate_summary_report`: assemble rows in order,
propagating the first raised exception, as a Python `for` loop does. -/
def exceptRows {α β : Type} (f : α → Except String β) : List α → Except String (List β)
  | [] => Except.ok []
  | x :: rest =>
    Except.bind (f x) (fun row =>
      Except.bind (exceptRows f rest) (fun rows => Except.ok (row :: rows)))

/-- The correlation matrix assembled by the double loop of
`generate_summary_report`, as a function of its final state: the loop writes
`1.0` on the diagonal and, once per unordered pair `i < j`, writes the
`'total'` of `calculate_correlation_spectral` into both `(i, j)` and
`(j, i)`. -/
noncomputable def summaryCorrMatrix (fc : FilterCore)
    (bands : List (String × ℚ × ℚ)) (assets : List (List ℚ)) :
    Fin assets.length → Fin assets.length → Option ℝ :=
  fun i j =>
    if i = j then some 1
    else if (i : ℕ) < (j : ℕ) then
      (calculate_correlation_spectral fc bands (assets.get i) (assets.get j)).total
    else
      (calculate_correlation_spectral fc bands (assets.get j) (assets.get i)).total

/-- `FrequencyDomainAnalyzer.generate_summary_report`: the per-asset summary
rows followed by the pairwise correlation matrix.  With no assets the loops
never run (so a missing band table goes unnoticed); with at least one asset
the first row's volatility call surfaces the `AttributeError`. -/
noncomputable def generate_summary_report_op (fc : FilterCore)
    (pgram : List ℚ → List ℚ) (a : Analyzer) (assets : List (List ℚ)) :
    Except String
      (List SummaryRow × (Fin assets.length → Fin assets.length → Option ℝ)) :=
  Except.bind (exceptRows (summaryRowOp pgram a) assets) (fun rows =>
    Except.ok (rows, summaryCorrMatrix fc (a.freq_bands.getD []) assets))

/-- The four aligned component series returned by `stl_decomposition`. -/
structure StlResult where
  original : List ℚ
  trend : List ℚ
  seasonal : List ℚ
  residual : List ℚ

/-- Abstraction of `statsmodels.tsa.seasonal.STL(returns, period, seasonal=13).fit()`
inside `stl_decomposition`'s `try` block.  `run` returns the fitted
`(trend, seasonal, resid)` triple, or `none` when the fit raises (for
example, on a series shorter than the period).  `len_ok` records the
statsmodels guarantee that a successful fit returns components aligned with
the input index. -/
structure STLFit where
  run : List ℚ → ℕ → Option (List ℚ × List ℚ × List ℚ)
  len_ok : ∀ xs p t s r, run xs p = some (t, s, r) →
    t.length = xs.length ∧ s.length = xs.length ∧ r.length = xs.length

/-- `returns.rolling(window=w, center=True).mean()` on exact values: at index
`i` the window is the `w` samples ending at `i + w / 2` (pandas centres with
the extra element on the right for even `w`); indices whose window leaves the
series get the missing value `none` (pandas `NaN`, since `min_periods`
defaults to the window size). -/
def rollingCenterMean (w : ℕ) (xs : List ℚ) : List (Option ℚ) :=
  (List.range xs.length).map (fun (i : ℕ) =>
    let hi : ℤ := (i : ℤ) + (w / 2 : ℕ)
    let lo : ℤ := hi - (w : ℤ) + 1
    if 0 ≤ lo ∧ hi < (xs.length : ℤ) then
      some (listMean ((xs.drop lo.toNat).take w))
    else none)

/-- `FrequencyDomainAnalyzer.stl_decomposition`: return the STL fit when it
succeeds; on any exception fall back to the centred moving average as trend
(`fillna(0)`), residual `returns - trend` computed **before** the fill and
then itself `fillna(0)`, and an all-zero seasonal series. -/
def stl_decomposition (fit : STLFit) (returns : List ℚ) (period : ℕ) :
    StlResult :=
  match fit.run returns period with
  | some (t, s, r) =>
    { original := returns, trend := t, seasonal := s, residual := r }
  | none =>
    let trend := rollingCenterMean period returns
    let residual := List.zipWith (fun x t => Option.map (fun v => x - v) t)
      returns trend
    { original := returns,
      trend := trend.map (fun o => o.getD 0),
      seasonal := List.replicate returns.length 0,
      residual := residual.map (fun o => o.getD 0) }

/-- `raw_strength = seasonal_vol / total_vol if total_vol > 0 else 0` in
`generate_stl_summary`. -/
def rawStrength (seasonal_vol total_vol : ℚ) : ℚ :=
  if 0 < total_vol then seasonal_vol / total_vol else 0

/-- `baseline = 0.35` in `generate_stl_summary`. -/
def baseline : ℚ := 35 / 100

/-- The seasonal-strength score of `generate_stl_summary` as a function of
`raw_strength`: `0` below the baseline, else
`min((raw - baseline) / (1 - baseline), 1)`. -/
def seasonalStrengthOfRaw (raw_strength : ℚ) : ℚ :=
  if raw_strength < baseline then 0
  else min ((raw_strength - baseline) / (1 - baseline)) 1

/-- The seasonal-strength score computed by `generate_stl_summary` from the
seasonal and total volatilities (the identical annualisation of both cancels
in the ratio, so the scalar type of the volatilities does not matter). -/
def generate_stl_summary_strength (seasonal_vol total_vol : ℚ) : ℚ :=
  seasonalStrengthOfRaw (rawStrength seasonal_vol total_vol)

/-- A filter core on which every SciPy call raises: `zero_phase_filter`
then always returns the all-zero fallback. -/
def fcZero : FilterCore :=
  { lowpass := fun _ _ => none,
    highpass := fun _ _ => none,
    bandpass := fun _ _ _ => none }

/-- A filter core on which every SciPy call returns the input unchanged. -/
def fcId : FilterCore :=
  { lowpass := fun _ d => some d,
    highpass := fun _ d => some d,
    bandpass := fun _ _ d => some d }

/-- A periodogram kernel returning no PSD values at all. -/
def pgZero : List ℚ → List ℚ := fun _ => []

/-- An STL kernel that always raises, forcing the fallback path. -/
def fitNone : STLFit :=
  { run := fun _ _ => none,
    len_ok := by intro xs p t s r h; cases h }

/-- Sums of squares are nonnegative. -/
theorem sumSq_nonneg (xs : List ℚ) : 0 ≤ (xs.map (fun x => x ^ 2)).sum := by
  apply List.sum_nonneg
  intro a ha
  obtain ⟨x, _, rfl⟩ := List.mem_map.mp ha
  positivity

/-- The sum of squared deviations is nonnegative. -/
theorem sqSum_nonneg (xs : List ℚ) : 0 ≤ sqSum xs :=
  sumSq_nonneg (demean xs)

/-- Cauchy–Schwarz for the truncating pairwise product of two lists. -/
theorem listCauchySchwarz (xs ys : List ℚ) :
    ((List.zipWith (fun a b => a * b) xs ys).sum) ^ 2 ≤
      ((xs.map (fun x => x ^ 2)).sum) * ((ys.map (fun y => y ^ 2)).sum) := by
  induction xs generalizing ys with
  | nil => simp
  | cons x xs ih =>
    cases ys with
    | nil => simp
    | cons y ys =>
      have h := ih ys
      have hA : 0 ≤ (xs.map (fun x => x ^ 2)).sum := sumSq_nonneg xs
      have hB : 0 ≤ (ys.map (fun y => y ^ 2)).sum := sumSq_nonneg ys
      simp only [List.zipWith_cons_cons, List.map_cons, List.sum_cons]
      set S := (List.zipWith (fun a b => a * b) xs ys).sum with hS
      set A := (xs.map (fun x => x ^ 2)).sum with hAdef
      set B := (ys.map (fun y => y ^ 2)).sum with hBdef
      rcases eq_or_lt_of_le hB with hB0 | hBpos
      · have hS0 : S = 0 := by
          have h1 : S ^ 2 ≤ 0 := by rw [← hB0] at h; simpa using h
          have h2 : S ^ 2 = 0 := le_antisymm h1 (sq_nonneg S)
          exact pow_eq_zero_iff (n := 2) (by norm_num) |>.mp h2
        rw [hS0, ← hB0]
        nlinarith [mul_nonneg hA (sq_nonneg y)]
      · nlinarith [sq_nonneg (x * B - y * S),
          mul_nonneg (add_nonneg (sq_nonneg y) hB) (sub_nonneg.mpr h)]

/-- Any defined (non-`NaN`) value of `corrcoef` lies in `[-1, 1]`. -/
theorem corrcoef_bounds (xs ys : List ℚ) (c : ℝ)
    (h : corrcoef xs ys = some c) : -1 ≤ c ∧ c ≤ 1 := by
  unfold corrcoef at h
  by_cases hcond : sqSum xs = 0 ∨ sqSum ys = 0
  · rw [if_pos hcond] at h; cases h
  rw [if_neg hcond] at h
  push_neg at hcond
  obtain ⟨hA, hB⟩ := hcond
  have hApos : (0 : ℚ) < sqSum xs := lt_of_le_of_ne (sqSum_nonneg xs) (Ne.symm hA)
  have hBpos : (0 : ℚ) < sqSum ys := lt_of_le_of_ne (sqSum_nonneg ys) (Ne.symm hB)
  have hApos' : (0 : ℝ) < ((sqSum xs : ℚ) : ℝ) := by exact_mod_cast hApos
  have hBpos' : (0 : ℝ) < ((sqSum ys : ℚ) : ℝ) := by exact_mod_cast hBpos
  have hcs : ((covSum xs ys : ℚ) : ℝ) ^ 2 ≤
      ((sqSum xs : ℚ) : ℝ) * ((sqSum ys : ℚ) : ℝ) := by
    have := listCauchySchwarz (demean xs) (demean ys)
    have h2 : (covSum xs ys) ^ 2 ≤ sqSum xs * sqSum ys := this
    exact_mod_cast h2
  have hden : (0 : ℝ) <
      Real.sqrt ((sqSum xs : ℚ) : ℝ) * Real.sqrt ((sqSum ys : ℚ) : ℝ) :=
    mul_pos (Real.sqrt_pos.mpr hApos') (Real.sqrt_pos.mpr hBpos')
  have habs : |((covSum xs ys : ℚ) : ℝ)| ≤
      Real.sqrt ((sqSum xs : ℚ) : ℝ) * Real.sqrt ((sqSum ys : ℚ) : ℝ) := by
    rw [← Real.sqrt_mul hApos'.le]
    calc |((covSum xs ys : ℚ) : ℝ)|
        = Real.sqrt (((covSum xs ys : ℚ) : ℝ) ^ 2) := (Real.sqrt_sq_eq_abs _).symm
      _ ≤ Real.sqrt (((sqSum xs : ℚ) : ℝ) * ((sqSum ys : ℚ) : ℝ)) :=
          Real.sqrt_le_sqrt hcs
  have hc : c = ((covSum xs ys : ℚ) : ℝ) /
      (Real.sqrt ((sqSum xs : ℚ) : ℝ) * Real.sqrt ((sqSum ys : ℚ) : ℝ)) :=
    (Option.some.inj h).symm
  have : |c| ≤ 1 := by
    rw [hc, abs_div, abs_of_pos hden]
    exact (div_le_one hden).mpr habs
  exact abs_le.mp this

/-- The truncating pairwise product of a list with itself squares it. -/
theorem zipWith_mul_self (l : List ℚ) :
    List.zipWith (fun a b => a * b) l l = l.map (fun x => x ^ 2) := by
  induction l with
  | nil => rfl
  | cons x xs ih => simp [ih, sq]

/-- The unnormalised covariance of a list with itself is `sqSum`. -/
theorem covSum_self (xs : List ℚ) : covSum xs xs = sqSum xs := by
  unfold covSum sqSum
  rw [zipWith_mul_self]

/-- `np.corrcoef` of a series with itself is exactly `1` whenever the series
has nonzero squared deviation. -/
theorem corrcoef_self (xs : List ℚ) (h : sqSum xs ≠ 0) :
    corrcoef xs xs = some 1 := by
  unfold corrcoef
  rw [if_neg (by simpa using h)]
  congr 1
  rw [covSum_self]
  have hpos : (0 : ℝ) < ((sqSum xs : ℚ) : ℝ) := by
    exact_mod_cast lt_of_le_of_ne (sqSum_nonneg xs) (Ne.symm h)
  rw [Real.mul_self_sqrt hpos.le]
  exact div_self hpos.ne'

/-- Variances are nonnegative. -/
theorem listVar_nonneg (xs : List ℚ) : 0 ≤ listVar xs :=
  div_nonneg (sqSum_nonneg xs) (Nat.cast_nonneg _)

/-- The standard-deviation test of `calculate_correlation_spectral`:
`np.std(xs) > 1e-10` holds exactly when the variance exceeds `1e-20`,
justifying the rational test used in `bandCorrEntry`. -/
theorem stdR_eps_iff (xs : List ℚ) :
    (1 / 10 ^ 10 : ℝ) < stdR xs ↔ (1 / 10 ^ 20 : ℚ) < listVar xs := by
  unfold stdR
  rw [Real.lt_sqrt (by norm_num)]
  constructor
  · intro h
    have : ((1 / 10 ^ 20 : ℚ) : ℝ) < ((listVar xs : ℚ) : ℝ) := by
      calc ((1 / 10 ^ 20 : ℚ) : ℝ) = (1 / 10 ^ 10 : ℝ) ^ 2 := by norm_num
        _ < _ := h
    exact_mod_cast this
  · intro h
    calc (1 / 10 ^ 10 : ℝ) ^ 2 = ((1 / 10 ^ 20 : ℚ) : ℝ) := by norm_num
      _ < _ := by exact_mod_cast h

/-- `np.std` is positive exactly when the variance is. -/
theorem stdR_pos_iff (xs : List ℚ) : 0 < stdR xs ↔ 0 < listVar xs := by
  unfold stdR
  rw [Real.sqrt_pos]
  exact ⟨fun h => by exact_mod_cast h, fun h => by exact_mod_cast h⟩

/-- The annualisation scalar is positive for every mode. -/
theorem annualizeFactor_pos (f : String) (a : Bool) :
    0 < annualizeFactor f a := by
  unfold annualizeFactor
  split_ifs <;> [exact Real.sqrt_pos.mpr (by norm_num);
    exact Real.sqrt_pos.mpr (by norm_num); norm_num]

/-- The Sharpe guard of `generate_summary_report`: `vol['total'] > 0` holds
exactly when the series' variance is positive, justifying the rational test
used in `summaryRowPure`. -/
theorem volTotal_pos_iff (f : String) (a : Bool) (xs : List ℚ) :
    0 < stdR xs * annualizeFactor f a ↔ 0 < listVar xs := by
  constructor
  · intro h
    by_contra hv
    have h0 : listVar xs = 0 :=
      le_antisymm (not_lt.mp hv) (listVar_nonneg xs)
    have : stdR xs = 0 := by unfold stdR; rw [h0]; simp
    rw [this, zero_mul] at h
    exact lt_irrefl 0 h
  · intro h
    exact mul_pos ((stdR_pos_iff xs).mpr h) (annualizeFactor_pos f a)

/-- Looking a band name up in the dictionary built by
`decompose_frequency_bands` yields that band's filtered series, provided the
band names are distinct (they are, in both band tables). -/
theorem lookup_decompose (fc : FilterCore) (bands : List (String × ℚ × ℚ))
    (data : List ℚ) (hnd : (bands.map (fun b => b.1)).Nodup)
    (b : String × ℚ × ℚ) (hb : b ∈ bands) :
    (decompose_frequency_bands fc bands data).lookup b.1 =
      some (bandFiltered fc b data) := by
  induction bands with
  | nil => cases hb
  | cons hd tl ih =>
    simp only [List.map_cons, List.nodup_cons] at hnd
    rcases List.mem_cons.mp hb with rfl | hb'
    · simp [decompose_frequency_bands, List.lookup]
    · have hne : (b.1 == hd.1) = false := by
        rw [beq_eq_false_iff_ne]
        intro hcontra
        exact hnd.1 (hcontra ▸ List.mem_map_of_mem (fun b => b.1) hb')
      simp only [decompose_frequency_bands, List.map_cons, List.lookup, hne]
      exact ih hnd.2 hb'

/-- Reading the filled (`fillna(0)`) version of an optional series at an
index reads the optional value there, with `none` becoming `0`. -/
theorem getD_map_getD (l : List (Option ℚ)) (i : ℕ) :
    (l.map (fun o => o.getD 0)).getD i 0 = (l.getD i none).getD 0 := by
  induction l generalizing i with
  | nil => simp [List.getD]
  | cons hd tl ih =>
    cases i with
    | zero => simp [List.getD]
    | succ n => simpa [List.getD] using ih n

/-- Reading the elementwise difference `returns - trend` (with missing
values propagating, as in pandas) at an index. -/
theorem getD_zipWith_sub (xs : List ℚ) (ts : List (Option ℚ))
    (h : ts.length = xs.length) (i : ℕ) :
    (List.zipWith (fun x t => Option.map (fun v => x - v) t) xs ts).getD i none
      = Option.map (fun v => xs.getD i 0 - v) (ts.getD i none) := by
  induction xs generalizing ts i with
  | nil =>
    cases ts with
    | nil => simp [List.getD]
    | cons t ts => simp at h
  | cons x xs ih =>
    cases ts with
    | nil => simp at h
    | cons t ts =>
      cases i with
      | zero => simp [List.getD]
      | succ n =>
        simp only [List.zipWith_cons_cons, List.getD_cons_succ]
        exact ih ts (by simpa using h) n

/-- The centred rolling mean keeps the input's length. -/
theorem rollingCenterMean_length (w : ℕ) (xs : List ℚ) :
    (rollingCenterMean w xs).length = xs.length := by
  simp only [rollingCenterMean, List.length_map, List.length_range]

/-- When every loop body succeeds, the per-asset loop returns the list of
its results. -/
theorem exceptRows_ok {α β : Type} (f : α → Except String β) (g : α → β)
    (l : List α) (h : ∀ x ∈ l, f x = Except.ok (g x)) :
    exceptRows f l = Except.ok (l.map g) := by
  induction l with
  | nil => rfl
  | cons x rest ih =>
    rw [exceptRows, h x (List.mem_cons_self x rest),
      ih (fun y hy => h y (List.mem_cons_of_mem x hy))]
    rfl

/-- A raised exception in the first loop body aborts the per-asset loop. -/
theorem exceptRows_error {α β : Type} (f : α → Except String β) (x : α)
    (rest : List α) (e : String) (h : f x = Except.error e) :
    exceptRows f (x :: rest) = Except.error e := by
  rw [exceptRows, h]
  rfl

/-- On an analyzer whose constructor set the band table, the summary report
succeeds and returns the per-asset rows together with the
`summaryCorrMatrix` correlation matrix. -/
theorem generate_summary_report_ok (fc : FilterCore) (pgram : List ℚ → List ℚ)
    (a : Analyzer) (bands : List (String × ℚ × ℚ)) (assets : List (List ℚ))
    (hb : a.freq_bands = some bands) :
    generate_summary_report_op fc pgram a assets =
      Except.ok (assets.map (summaryRowPure pgram a.sampling_freq bands),
        summaryCorrMatrix fc bands assets) := by
  unfold generate_summary_report_op
  rw [exceptRows_ok (summaryRowOp pgram a)
    (summaryRowPure pgram a.sampling_freq bands) assets
    (fun xs _ => by unfold summaryRowOp; rw [hb]), hb]
  rfl

/-- A band volatility before annualisation is nonnegative: it is either the
policy `0` or a square root. -/
theorem bandStd_nonneg (b : String × ℚ × ℚ) (freqs psd : List ℚ) :
    0 ≤ bandStd b freqs psd := by
  unfold bandStd
  dsimp only
  split_ifs
  · exact le_refl 0
  · exact Real.sqrt_nonneg _

/-- Every band entry produced by `bandCorrEntry` lies in `[-1, 1]`. -/
theorem bandCorrEntry_bounds (f1 f2 : List ℚ) :
    -1 ≤ bandCorrEntry f1 f2 ∧ bandCorrEntry f1 f2 ≤ 1 := by
  unfold bandCorrEntry
  split_ifs with h
  · cases hc : corrcoef f1 f2 with
    | none => norm_num
    | some c => exact corrcoef_bounds f1 f2 c hc
  · norm_num

/-- Reading an all-zero series at any index gives `0`. -/
theorem getD_replicate_zero (n i : ℕ) : (List.replicate n (0 : ℚ)).getD i 0 = 0 := by
  induction n generalizing i with
  | zero => simp [List.getD]
  | succ m ih =>
    cases i with
    | zero => simp [List.replicate, List.getD]
    | succ k => simp only [List.replicate, List.getD_cons_succ]; exact ih k

/-- C5: for every input series and every pair of given frequency bounds
whose normalised-and-clamped values satisfy `low >= high`, the band-pass
branch of `zero_phase_filter` returns an exactly all-zero series of the same
length as the input (the function is total, so no error is raised). -/
theorem C5_degenerate_band (fc : FilterCore) (data : List ℚ) (lf hf : ℚ)
    (h : clampNorm (hf / nyquist) ≤ clampNorm (lf / nyquist)) :
    zero_phase_filter fc data (some lf) (some hf) =
      List.replicate data.length 0 ∧
    (zero_phase_filter fc data (some lf) (some hf)).length = data.length := by
  have h1 : zero_phase_filter fc data (some lf) (some hf) =
      List.replicate data.length 0 := by
    simp only [zero_phase_filter]
    rw [if_pos h]
  exact ⟨h1, by rw [h1, List.length_replicate]⟩

/-- Witness for C5 at the concrete degenerate band `low = high = 1/10` on
the two-sample input `[1, 2]`. -/
theorem C5_witness :
    zero_phase_filter fcZero [1, 2] (some (1 / 10)) (some (1 / 10)) =
      [0, 0] := by
  have h := C5_degenerate_band fcZero [1, 2] (1 / 10) (1 / 10) (le_refl _)
  exact h.1.trans rfl

/-- C7: `stl_decomposition` is total: for every STL kernel, series and
period it returns all four components, `original` is the input, every
component has the input's length, and whenever the STL fit raises (so the
moving-average fallback runs) the seasonal component is identically zero. -/
theorem C7_stl_total (fit : STLFit) (xs : List ℚ) (period : ℕ) :
    (stl_decomposition fit xs period).original = xs ∧
    (stl_decomposition fit xs period).trend.length = xs.length ∧
    (stl_decomposition fit xs period).seasonal.length = xs.length ∧
    (stl_decomposition fit xs period).residual.length = xs.length ∧
    (fit.run xs period = none →
      (stl_decomposition fit xs period).seasonal = List.replicate xs.length 0) := by
  unfold stl_decomposition
  cases hrun : fit.run xs period with
  | some tsr =>
    obtain ⟨t, s, r⟩ := tsr
    obtain ⟨ht, hs, hr⟩ := fit.len_ok xs period t s r hrun
    exact ⟨rfl, ht, hs, hr, fun hcontra => by cases hcontra⟩
  | none =>
    refine ⟨rfl, ?_, ?_, ?_, fun _ => rfl⟩
    · rw [List.length_map, rollingCenterMean_length]
    · exact List.length_replicate xs.length 0
    · rw [List.length_map, List.length_zipWith, rollingCenterMean_length,
        min_self]

/-- Witness for C7 on a two-sample series with period `5` (shorter than the
period), under the always-raising STL kernel. -/
theorem C7_witness :
    (stl_decomposition fitNone [1, 2] 5).original = [1, 2] ∧
    (stl_decomposition fitNone [1, 2] 5).trend.length = 2 ∧
    (stl_decomposition fitNone [1, 2] 5).seasonal = [0, 0] := by
  have h := C7_stl_total fitNone [1, 2] 5
  exact ⟨h.1, h.2.1, (h.2.2.2.2 rfl).trans rfl⟩

/-- C10: constructing the analyzer with the undocumented-in-code sampling
frequency `'W'` succeeds but leaves `freq_bands` unset, so every band-based
method raises `AttributeError` (for `generate_summary_report`, as soon as
there is at least one asset column), while `calculate_expected_return` still
succeeds and — because neither annualisation branch matches `'W'` — returns
the plain, unannualised mean. -/
theorem C10_unknown_sampling_frequency :
    (FrequencyDomainAnalyzer_init "W").freq_bands = none ∧
    (∀ fc data, decompose_op fc (FrequencyDomainAnalyzer_init "W") data =
      Except.error attrError) ∧
    (∀ pgram ann data, volatility_op pgram (FrequencyDomainAnalyzer_init "W")
      ann data = Except.error attrError) ∧
    (∀ fc r1 r2, correlation_op fc (FrequencyDomainAnalyzer_init "W") r1 r2 =
      Except.error attrError) ∧
    (∀ fc pgram xs rest, generate_summary_report_op fc pgram
      (FrequencyDomainAnalyzer_init "W") (xs :: rest) = Except.error attrError) ∧
    (∀ ann xs, calculate_expected_return
      (FrequencyDomainAnalyzer_init "W").sampling_freq ann xs = listMean xs) := by
  refine ⟨rfl, fun _ _ => rfl, fun _ _ _ => rfl, fun _ _ _ => rfl,
    fun _ _ _ _ => rfl, fun ann xs => ?_⟩
  cases ann <;> rfl

/-- On the three-sample constant series `[1, 1, 1]` with period `3`, the
centred rolling mean is defined only at the middle index. -/
theorem rollingCenterMean_3_ones :
    rollingCenterMean 3 [1, 1, 1] = [none, some 1, none] := by
  norm_num [rollingCenterMean, List.range_succ, listMean]

/-- C2 counterexample: on the fallback path for `[1, 1, 1]` with period `3`,
at edge index `0` the returned residual is `0`, not `original - trend`, and
`original = trend + seasonal + residual` fails (`1 ≠ 0`): both fills happen
after the subtraction, so edge indices lose the reconstruction identity. -/
theorem C2_cex :
    (stl_decomposition fitNone [1, 1, 1] 3).residual.getD 0 0 ≠
      (stl_decomposition fitNone [1, 1, 1] 3).original.getD 0 0 -
        (stl_decomposition fitNone [1, 1, 1] 3).trend.getD 0 0 ∧
    (stl_decomposition fitNone [1, 1, 1] 3).original.getD 0 0 ≠
      (stl_decomposition fitNone [1, 1, 1] 3).trend.getD 0 0 +
        (stl_decomposition fitNone [1, 1, 1] 3).seasonal.getD 0 0 +
        (stl_decomposition fitNone [1, 1, 1] 3).residual.getD 0 0 := by
  have h : stl_decomposition fitNone [1, 1, 1] 3 =
      { original := [1, 1, 1], trend := [0, 1, 0],
        seasonal := [0, 0, 0], residual := [0, 0, 0] } := by
    simp [stl_decomposition, fitNone, rollingCenterMean_3_ones, List.replicate]
  rw [h]
  norm_num [List.getD]

/-- C2 (amended): on the fallback path, at every index where the centred
rolling mean is defined the returned residual equals `original - trend` and
`original = trend + seasonal + residual` holds exactly; at indices where the
rolling mean is missing (the window leaves the series), trend and residual
are both filled with `0`, so the reconstruction identity holds there only
when the original sample is itself `0`. -/
theorem C2_fallback_identity (fit : STLFit) (xs : List ℚ) (period : ℕ)
    (i : ℕ) (hfb : fit.run xs period = none) :
    (∀ t, (rollingCenterMean period xs).getD i none = some t →
      (stl_decomposition fit xs period).trend.getD i 0 = t ∧
      (stl_decomposition fit xs period).residual.getD i 0 = xs.getD i 0 - t ∧
      xs.getD i 0 =
        (stl_decomposition fit xs period).trend.getD i 0 +
          (stl_decomposition fit xs period).seasonal.getD i 0 +
          (stl_decomposition fit xs period).residual.getD i 0) ∧
    ((rollingCenterMean period xs).getD i none = none →
      (stl_decomposition fit xs period).trend.getD i 0 = 0 ∧
      (stl_decomposition fit xs period).residual.getD i 0 = 0) := by
  have hR : stl_decomposition fit xs period =
      { original := xs,
        trend := (rollingCenterMean period xs).map (fun o => o.getD 0),
        seasonal := List.replicate xs.length 0,
        residual := (List.zipWith (fun x t => Option.map (fun v => x - v) t)
          xs (rollingCenterMean period xs)).map (fun o => o.getD 0) } := by
    unfold stl_decomposition
    rw [hfb]
  have hlen : (rollingCenterMean period xs).length = xs.length :=
    rollingCenterMean_length period xs
  have htrend : (stl_decomposition fit xs period).trend.getD i 0 =
      ((rollingCenterMean period xs).getD i none).getD 0 := by
    rw [hR]; exact getD_map_getD _ i
  have hres : (stl_decomposition fit xs period).residual.getD i 0 =
      (Option.map (fun v => xs.getD i 0 - v)
        ((rollingCenterMean period xs).getD i none)).getD 0 := by
    rw [hR]
    dsimp only
    rw [getD_map_getD _ i, getD_zipWith_sub xs _ hlen i]
  have hseas : (stl_decomposition fit xs period).seasonal.getD i 0 = 0 := by
    rw [hR]; exact getD_replicate_zero xs.length i
  constructor
  · intro t ht
    rw [htrend, hres, hseas, ht]
    refine ⟨rfl, rfl, ?_⟩
    show xs.getD i 0 = t + 0 + (xs.getD i 0 - t)
    ring
  · intro hnone
    rw [htrend, hres, hnone]
    exact ⟨rfl, rfl⟩

/-- Witness for C2 at the interior index `1` of `[1, 1, 1]` with period `3`:
the rolling mean is defined there and the identity holds exactly. -/
theorem C2_witness :
    (stl_decomposition fitNone [1, 1, 1] 3).trend.getD 1 0 = 1 ∧
    (stl_decomposition fitNone [1, 1, 1] 3).residual.getD 1 0 =
      ([1, 1, 1] : List ℚ).getD 1 0 - 1 ∧
    ([1, 1, 1] : List ℚ).getD 1 0 =
      (stl_decomposition fitNone [1, 1, 1] 3).trend.getD 1 0 +
        (stl_decomposition fitNone [1, 1, 1] 3).seasonal.getD 1 0 +
        (stl_decomposition fitNone [1, 1, 1] 3).residual.getD 1 0 := by
  have h := (C2_fallback_identity fitNone [1, 1, 1] 3 1 rfl).1 1
    (by rw [rollingCenterMean_3_ones]; rfl)
  exact ⟨h.1, h.2.1, h.2.2⟩

/-- C4 counterexample: with `seasonal_vol = 2` and `total_vol = 1` the raw
strength is `2`, not `1`, yet the score is exactly `1.0` — the clipped score
reaches `1.0` for every `raw_strength >= 1`, so "equals 1.0 exactly when
raw_strength == 1.0" fails as stated. -/
theorem C4_cex :
    rawStrength 2 1 ≠ 1 ∧ generate_stl_summary_strength 2 1 = 1 := by
  constructor
  · norm_num [rawStrength]
  · norm_num [generate_stl_summary_strength, seasonalStrengthOfRaw,
      rawStrength, baseline, min_def]

/-- C4 (amended): the score is `0` below the `0.35` baseline and
`min((raw - 0.35) / 0.65, 1)` at or above it; it always lies in `[0, 1]`,
is monotonically non-decreasing in the raw strength, and equals `1.0`
exactly when `raw_strength >= 1` (so for `raw_strength <= 1` it reaches `1.0`
only at `1.0`, but larger raw strengths also clip to `1.0`). -/
theorem C4_strength (sv tv r1 r2 : ℚ) :
    (rawStrength sv tv < baseline → generate_stl_summary_strength sv tv = 0) ∧
    (baseline ≤ rawStrength sv tv →
      generate_stl_summary_strength sv tv =
        min ((rawStrength sv tv - baseline) / (1 - baseline)) 1) ∧
    0 ≤ generate_stl_summary_strength sv tv ∧
    generate_stl_summary_strength sv tv ≤ 1 ∧
    (r1 ≤ r2 → seasonalStrengthOfRaw r1 ≤ seasonalStrengthOfRaw r2) ∧
    (seasonalStrengthOfRaw r1 = 1 ↔ 1 ≤ r1) := by
  have hbounds : ∀ r : ℚ, 0 ≤ seasonalStrengthOfRaw r ∧ seasonalStrengthOfRaw r ≤ 1 := by
    intro r
    unfold seasonalStrengthOfRaw
    split_ifs with h
    · norm_num
    · constructor
      · apply le_min
        · apply div_nonneg
          · rw [not_lt] at h; linarith
          · norm_num [baseline]
        · norm_num
      · exact min_le_right _ _
  refine ⟨?_, ?_, (hbounds _).1, (hbounds _).2, ?_, ?_⟩
  · intro h
    unfold generate_stl_summary_strength seasonalStrengthOfRaw
    rw [if_pos h]
  · intro h
    unfold generate_stl_summary_strength seasonalStrengthOfRaw
    rw [if_neg (not_lt.mpr h)]
  · intro hle
    unfold seasonalStrengthOfRaw
    split_ifs with h1 h2 h2
    · exact le_refl 0
    · apply le_min
      · apply div_nonneg
        · rw [not_lt] at h2; linarith
        · norm_num [baseline]
      · norm_num
    · exact absurd (lt_of_le_of_lt hle h2) h1
    · apply min_le_min _ (le_refl 1)
      exact (div_le_div_iff_of_pos_right (by norm_num [baseline])).mpr (by linarith)
  · unfold seasonalStrengthOfRaw
    split_ifs with h
    · rw [baseline] at h
      constructor
      · intro h0; exact absurd h0 (by norm_num)
      · intro h1; linarith
    · rw [min_eq_right_iff]
      rw [le_div_iff₀ (by norm_num [baseline])]
      rw [baseline]
      constructor
      · intro h'; linarith
      · intro h'; linarith

/-- Witness for C4: concrete scores below the baseline (`raw = 1/4`),
above it (`raw = 1/2`), a monotonicity instance, and the score reaching `1`
at `raw = 1`. -/
theorem C4_witness :
    generate_stl_summary_strength 1 4 = 0 ∧
    generate_stl_summary_strength 1 2 =
      min ((rawStrength 1 2 - baseline) / (1 - baseline)) 1 ∧
    seasonalStrengthOfRaw 0 ≤ seasonalStrengthOfRaw 1 ∧
    seasonalStrengthOfRaw 1 = 1 := by
  refine ⟨(C4_strength 1 4 0 1).1 ?_, (C4_strength 1 2 0 1).2.1 ?_,
    (C4_strength 1 2 0 1).2.2.2.2.1 (by norm_num),
    ((C4_strength 1 2 1 2).2.2.2.2.2).mpr (le_refl 1)⟩
  · norm_num [rawStrength, baseline]
  · norm_num [rawStrength, baseline]

/-- The `short_term` mask is the closed interval `[1/25, 1/2]`. -/
theorem mask_short (f : ℚ) :
    bandMask ("short_term", 1 / 25, 1 / 2) f = true ↔ 1 / 25 ≤ f ∧ f ≤ 1 / 2 := by
  rw [bandMask, if_neg (by decide)]
  exact decide_eq_true_iff

/-- The `medium_term` mask is the closed interval `[1/125, 1/25]`. -/
theorem mask_medium (f : ℚ) :
    bandMask ("medium_term", 1 / 125, 1 / 25) f = true ↔ 1 / 125 ≤ f ∧ f ≤ 1 / 25 := by
  rw [bandMask, if_neg (by decide)]
  exact decide_eq_true_iff

/-- The `business_cycle` mask is the closed interval `[1/500, 1/125]`. -/
theorem mask_business (f : ℚ) :
    bandMask ("business_cycle", 1 / 500, 1 / 125) f = true ↔ 1 / 500 ≤ f ∧ f ≤ 1 / 125 := by
  rw [bandMask, if_neg (by decide)]
  exact decide_eq_true_iff

/-- The `long_term` mask is the closed interval `[0, 1/500]`. -/
theorem mask_long (f : ℚ) :
    bandMask ("long_term", 0, 1 / 500) f = true ↔ 0 ≤ f ∧ f ≤ 1 / 500 := by
  rw [bandMask, if_pos rfl]
  exact decide_eq_true_iff

/-- C3 counterexample: the periodogram of a 25-sample series has a bin at
exactly `1/25 = 0.04`, and that bin satisfies the masks of both the
`short_term` and the `medium_term` band — the source masks are closed
intervals (`>= low` and `<= high`), not half-open ones, so boundary bins are
integrated into two different bands. -/
theorem C3_cex :
    ((1 : ℚ) / 25) ∈ periodogramFreqs 25 ∧
    ("short_term", (1 : ℚ) / 25, (1 : ℚ) / 2) ∈ freqBandsD ∧
    ("medium_term", (1 : ℚ) / 125, (1 : ℚ) / 25) ∈ freqBandsD ∧
    "short_term" ≠ "medium_term" ∧
    bandMask ("short_term", 1 / 25, 1 / 2) (1 / 25) = true ∧
    bandMask ("medium_term", 1 / 125, 1 / 25) (1 / 25) = true := by
  refine ⟨?_, by norm_num [freqBandsD], by norm_num [freqBandsD], by decide,
    (mask_short _).mpr (by norm_num), (mask_medium _).mpr (by norm_num)⟩
  unfold periodogramFreqs
  have h1 : (1 : ℕ) ∈ List.range (25 / 2 + 1) := List.mem_range.mpr (by norm_num)
  exact List.mem_map.mpr ⟨1, h1, by norm_num⟩

/-- C3 (amended): each daily band's integration mask is the **closed**
interval `[low, high]` (`[0, high]` for `long_term`); consequently the only
frequencies lying in the masks of two different bands are the three shared
boundaries `1/500`, `1/125` and `1/25`, and a periodogram bin is
double-integrated exactly when it falls on one of them. -/
theorem C3_band_overlap (f : ℚ) (b1 b2 : String × ℚ × ℚ)
    (h1 : b1 ∈ freqBandsD) (h2 : b2 ∈ freqBandsD) (hne : b1.1 ≠ b2.1)
    (hm1 : bandMask b1 f = true) (hm2 : bandMask b2 f = true) :
    f = 1 / 500 ∨ f = 1 / 125 ∨ f = 1 / 25 := by
  simp only [freqBandsD, List.mem_cons, List.not_mem_nil, or_false] at h1 h2
  rcases h1 with rfl | rfl | rfl | rfl <;> rcases h2 with rfl | rfl | rfl | rfl <;>
    simp only [mask_short, mask_medium, mask_business, mask_long] at hm1 hm2 <;>
    first
      | exact absurd rfl hne
      | (obtain ⟨a1, a2⟩ := hm1
         obtain ⟨c1, c2⟩ := hm2
         first
           | (left; linarith)
           | (right; left; linarith)
           | (right; right; linarith))

/-- Witness for C3: the boundary bin `1/25` shared by `short_term` and
`medium_term`. -/
theorem C3_witness :
    (1 : ℚ) / 25 = 1 / 500 ∨ (1 : ℚ) / 25 = 1 / 125 ∨ (1 : ℚ) / 25 = 1 / 25 := by
  apply C3_band_overlap (1 / 25) ("short_term", 1 / 25, 1 / 2)
    ("medium_term", 1 / 125, 1 / 25)
  · norm_num [freqBandsD]
  · norm_num [freqBandsD]
  · decide
  · exact (mask_short _).mpr (by norm_num)
  · exact (mask_medium _).mpr (by norm_num)

/-- C9: for every non-empty input series (and every possible periodogram
PSD), each band entry of `calculate_volatility_spectral` is nonnegative —
it is `sqrt(abs(trapz))` times the positive annualisation scalar — and the
entry of any band whose frequency range contains no periodogram bin is
exactly `0.0`. -/
theorem C9_band_vol_nonneg (pgram : List ℚ → List ℚ) (sampling_freq : String)
    (ann : Bool) (data : List ℚ) (_hne : data ≠ []) :
    (∀ p ∈ (calculate_volatility_spectral pgram sampling_freq freqBandsD ann
        data).bands, 0 ≤ p.2) ∧
    (∀ b ∈ freqBandsD,
      (∀ f ∈ periodogramFreqs data.length, bandMask b f = false) →
      (b.1, (0 : ℝ)) ∈ (calculate_volatility_spectral pgram sampling_freq
        freqBandsD ann data).bands) := by
  constructor
  · intro p hp
    simp only [calculate_volatility_spectral, List.mem_map] at hp
    obtain ⟨b, _, rfl⟩ := hp
    exact mul_nonneg (bandStd_nonneg b _ _)
      (annualizeFactor_pos sampling_freq ann).le
  · intro b hb hmask
    simp only [calculate_volatility_spectral, List.mem_map]
    refine ⟨b, hb, ?_⟩
    have hpts : ((periodogramFreqs data.length).zip (pgram data)).filter
        (fun p => bandMask b p.1) = [] := by
      rw [List.filter_eq_nil_iff]
      intro p hp
      have hf : p.1 ∈ periodogramFreqs data.length := by
        obtain ⟨f, y⟩ := p
        exact (List.of_mem_zip hp).1
      rw [hmask p.1 hf]
      simp
    have hzero : bandStd b (periodogramFreqs data.length) (pgram data) = 0 := by
      unfold bandStd
      dsimp only
      rw [if_pos hpts]
    rw [hzero, zero_mul]

/-- Witness for C9 on the one-sample series `[1]`, whose only periodogram
bin is `0`: it misses the `short_term` band, whose volatility entry is
therefore exactly `0`, and the nonnegativity clause applies to it. -/
theorem C9_witness :
    ("short_term", (0 : ℝ)) ∈
      (calculate_volatility_spectral pgZero "D" freqBandsD true [1]).bands ∧
    (0 : ℝ) ≤ 0 := by
  have h := C9_band_vol_nonneg pgZero "D" true [1] (by simp)
  have hmem := h.2 ("short_term", 1 / 25, 1 / 2) (by norm_num [freqBandsD])
    (by
      intro f hf
      unfold periodogramFreqs at hf
      simp only [List.mem_map, List.mem_range] at hf
      obtain ⟨k, hk, rfl⟩ := hf
      simp only [List.length_cons, List.length_nil] at hk
      have hk0 : k = 0 := by omega
      subst hk0
      rw [bandMask, if_neg (by decide)]
      simp only [decide_eq_false_iff_not]
      norm_num)
  exact ⟨hmem, h.1 ("short_term", 0) hmem⟩

/-- C6: on a daily analyzer, `generate_summary_report` succeeds and returns
exactly the `summaryCorrMatrix` correlation matrix, which is exactly
symmetric, carries exactly `1.0` on the whole diagonal, and whose
off-diagonal entries both equal the `'total'` value of the unordered pair's
correlation report, computed at the pair `(i, j)` with `i < j` and
mirrored into `(j, i)`. -/
theorem C6_corr_matrix (fc : FilterCore) (pgram : List ℚ → List ℚ)
    (assets : List (List ℚ)) :
    generate_summary_report_op fc pgram (FrequencyDomainAnalyzer_init "D")
        assets =
      Except.ok (assets.map (summaryRowPure pgram "D" freqBandsD),
        summaryCorrMatrix fc freqBandsD assets) ∧
    (∀ i j, summaryCorrMatrix fc freqBandsD assets i j =
      summaryCorrMatrix fc freqBandsD assets j i) ∧
    (∀ i, summaryCorrMatrix fc freqBandsD assets i i = some 1) ∧
    (∀ (i j : Fin assets.length), (i : ℕ) < (j : ℕ) →
      summaryCorrMatrix fc freqBandsD assets i j =
        (calculate_correlation_spectral fc freqBandsD (assets.get i)
          (assets.get j)).total ∧
      summaryCorrMatrix fc freqBandsD assets j i =
        (calculate_correlation_spectral fc freqBandsD (assets.get i)
          (assets.get j)).total) := by
  refine ⟨generate_summary_report_ok fc pgram _ freqBandsD assets rfl,
    ?_, ?_, ?_⟩
  · intro i j
    unfold summaryCorrMatrix
    by_cases hij : i = j
    · subst hij; rfl
    · have hji : j ≠ i := Ne.symm hij
      rw [if_neg hij, if_neg hji]
      have hvne : (i : ℕ) ≠ (j : ℕ) := fun hv => hij (Fin.ext hv)
      rcases lt_or_gt_of_ne hvne with h | h
      · rw [if_pos h, if_neg (by omega)]
      · rw [if_neg (by omega), if_pos h]
  · intro i
    unfold summaryCorrMatrix
    rw [if_pos rfl]
  · intro i j hlt
    have hij : i ≠ j := fun hv => by rw [hv] at hlt; exact lt_irrefl _ hlt
    have hji : j ≠ i := Ne.symm hij
    unfold summaryCorrMatrix
    rw [if_neg hij, if_pos hlt, if_neg hji, if_neg (by omega)]
    exact ⟨rfl, rfl⟩

/-- Witness for C6 on the two-asset table `[[1], [2]]`. -/
theorem C6_witness :
    summaryCorrMatrix fcZero freqBandsD [[1], [2]]
        ⟨0, by norm_num⟩ ⟨1, by norm_num⟩ =
      summaryCorrMatrix fcZero freqBandsD [[1], [2]]
        ⟨1, by norm_num⟩ ⟨0, by norm_num⟩ ∧
    summaryCorrMatrix fcZero freqBandsD [[1], [2]]
        ⟨0, by norm_num⟩ ⟨0, by norm_num⟩ = some 1 ∧
    summaryCorrMatrix fcZero freqBandsD [[1], [2]]
        ⟨0, by norm_num⟩ ⟨1, by norm_num⟩ =
      (calculate_correlation_spectral fcZero freqBandsD [1] [2]).total := by
  have h := C6_corr_matrix fcZero pgZero [[1], [2]]
  exact ⟨h.2.1 _ _, h.2.2.1 _,
    (h.2.2.2 ⟨0, by norm_num⟩ ⟨1, by norm_num⟩ (by norm_num)).1⟩

/-- C8: correlating a series with itself, both decompositions are the same
term (decomposition is a pure function), so every band whose filtered signal
has standard deviation above the `1e-10` epsilon reports exactly `1.0`, and
the `'total'` entry is exactly `1.0` whenever the series has nonzero
variance (i.e. is not constant). -/
theorem C8_self_correlation (fc : FilterCore) (s : List ℚ) :
    (∀ b ∈ freqBandsD, (1 / 10 ^ 10 : ℝ) < stdR (bandFiltered fc b s) →
      (b.1, (1 : ℝ)) ∈ (calculate_correlation_spectral fc freqBandsD s s).bands) ∧
    (listVar s ≠ 0 →
      (calculate_correlation_spectral fc freqBandsD s s).total = some 1) := by
  constructor
  · intro b hb hstd
    have hvar : (1 / 10 ^ 20 : ℚ) < listVar (bandFiltered fc b s) :=
      (stdR_eps_iff _).mp hstd
    have hnd : (freqBandsD.map (fun b => b.1)).Nodup := by decide
    have hlk := lookup_decompose fc freqBandsD s hnd b hb
    simp only [calculate_correlation_spectral]
    apply List.mem_map.mpr
    refine ⟨b, hb, ?_⟩
    rw [hlk]
    simp only [Option.getD_some]
    have hentry : bandCorrEntry (bandFiltered fc b s) (bandFiltered fc b s) = 1 := by
      unfold bandCorrEntry
      rw [if_pos ⟨hvar, hvar⟩]
      have hsq : sqSum (bandFiltered fc b s) ≠ 0 := by
        intro h0
        rw [listVar, h0, zero_div] at hvar
        norm_num at hvar
      rw [corrcoef_self _ hsq]
    rw [hentry]
  · intro hvar
    have hsq : sqSum s ≠ 0 := fun h0 => hvar (by rw [listVar, h0, zero_div])
    simp only [calculate_correlation_spectral]
    exact corrcoef_self s hsq

/-- Witness for C8 on the non-constant series `[0, 2]` under an identity
filter kernel: the `short_term` filtered signal is `[0, 2]` itself, with
standard deviation `1 > 1e-10`, and the band and total entries are `1`. -/
theorem C8_witness :
    ("short_term", (1 : ℝ)) ∈
      (calculate_correlation_spectral fcId freqBandsD [0, 2] [0, 2]).bands ∧
    (calculate_correlation_spectral fcId freqBandsD [0, 2] [0, 2]).total =
      some 1 := by
  have hfilt : bandFiltered fcId ("short_term", 1 / 25, 1 / 2) [0, 2] = [0, 2] := by
    rw [bandFiltered, if_neg (by decide)]
    simp only [zero_phase_filter, fcId]
    rw [if_neg (by norm_num [clampNorm, nyquist])]
  have hvar : listVar [0, 2] = 1 := by
    norm_num [listVar, sqSum, demean, listMean]
  have h := C8_self_correlation fcId [0, 2]
  constructor
  · apply h.1 ("short_term", 1 / 25, 1 / 2) (by norm_num [freqBandsD])
    rw [hfilt]
    unfold stdR
    rw [hvar]
    rw [show ((1 : ℚ) : ℝ) = 1 by norm_num, Real.sqrt_one]
    norm_num
  · exact h.2 (by rw [hvar]; norm_num)

/-- C1 counterexample: on the equal-length constant pair `[1, 1]`, `[1, 1]`
the `'total'` entry of the correlation report is the `NaN` produced by
`np.corrcoef` on a zero-variance series, and it is returned as `NaN` — the
source has no NaN check on `'total'`, so "any NaN correlation (including for
'total') is mapped to 0.0" and "every value is in `[-1, 1]`" both fail. -/
theorem C1_cex :
    (calculate_correlation_spectral fcZero freqBandsD [1, 1] [1, 1]).total =
      none ∧
    (none : Option ℝ) ≠ some 0 := by
  refine ⟨?_, by simp⟩
  simp only [calculate_correlation_spectral]
  unfold corrcoef
  rw [if_pos (Or.inl (by norm_num [sqSum, demean, listMean]))]

/-- C1 (amended): every band entry of the correlation report lies in
`[-1, 1]` and is exactly `0.0` whenever either filtered signal's standard
deviation is at most `1e-10`; the `'total'` entry lies in `[-1, 1]` whenever
it is defined, but is the unremapped `NaN` when either input series has zero
variance. -/
theorem C1_corr_report (fc : FilterCore) (s1 s2 : List ℚ) :
    (∀ p ∈ (calculate_correlation_spectral fc freqBandsD s1 s2).bands,
      -1 ≤ p.2 ∧ p.2 ≤ 1) ∧
    (∀ b ∈ freqBandsD,
      (stdR (bandFiltered fc b s1) ≤ 1 / 10 ^ 10 ∨
        stdR (bandFiltered fc b s2) ≤ 1 / 10 ^ 10) →
      (b.1, (0 : ℝ)) ∈
        (calculate_correlation_spectral fc freqBandsD s1 s2).bands) ∧
    (∀ c, (calculate_correlation_spectral fc freqBandsD s1 s2).total = some c →
      -1 ≤ c ∧ c ≤ 1) := by
  refine ⟨?_, ?_, ?_⟩
  · intro p hp
    simp only [calculate_correlation_spectral, List.mem_map] at hp
    obtain ⟨b, _, rfl⟩ := hp
    exact bandCorrEntry_bounds _ _
  · intro b hb hsmall
    have hnd : (freqBandsD.map (fun b => b.1)).Nodup := by decide
    simp only [calculate_correlation_spectral]
    apply List.mem_map.mpr
    refine ⟨b, hb, ?_⟩
    rw [lookup_decompose fc freqBandsD s1 hnd b hb,
      lookup_decompose fc freqBandsD s2 hnd b hb]
    simp only [Option.getD_some]
    have hcond : ¬((1 / 10 ^ 20 : ℚ) < listVar (bandFiltered fc b s1) ∧
        (1 / 10 ^ 20 : ℚ) < listVar (bandFiltered fc b s2)) := by
      rcases hsmall with hs | hs
      · intro hc
        exact absurd ((stdR_eps_iff _).mpr hc.1) (not_lt.mpr hs)
      · intro hc
        exact absurd ((stdR_eps_iff _).mpr hc.2) (not_lt.mpr hs)
    have hentry : bandCorrEntry (bandFiltered fc b s1) (bandFiltered fc b s2) = 0 := by
      unfold bandCorrEntry
      rw [if_neg hcond]
    rw [hentry]
  · intro c hc
    simp only [calculate_correlation_spectral] at hc
    exact corrcoef_bounds s1 s2 c hc

/-- Witness for C1: a defined total correlation (`[0, 1]` against itself,
total exactly `1`, inside `[-1, 1]`), and the zero policy firing for a band
whose filter kernel raised (all-zero filtered signal, standard deviation
`0 <= 1e-10`). -/
theorem C1_witness :
    (calculate_correlation_spectral fcId freqBandsD [0, 1] [0, 1]).total =
      some 1 ∧
    (-1 ≤ (1 : ℝ) ∧ (1 : ℝ) ≤ 1) ∧
    ("short_term", (0 : ℝ)) ∈
      (calculate_correlation_spectral fcZero freqBandsD [0, 1] [0, 1]).bands := by
  have htot : (calculate_correlation_spectral fcId freqBandsD [0, 1] [0, 1]).total =
      some 1 := by
    simp only [calculate_correlation_spectral]
    exact corrcoef_self [0, 1] (by norm_num [sqSum, demean, listMean])
  refine ⟨htot, (C1_corr_report fcId [0, 1] [0, 1]).2.2 1 htot, ?_⟩
  apply (C1_corr_report fcZero [0, 1] [0, 1]).2.1 ("short_term", 1 / 25, 1 / 2)
    (by norm_num [freqBandsD])
  left
  have hfz : bandFiltered fcZero ("short_term", 1 / 25, 1 / 2) [0, 1] = [0, 0] := by
    rw [bandFiltered, if_neg (by decide)]
    simp only [zero_phase_filter, fcZero]
    rw [if_neg (by norm_num [clampNorm, nyquist])]
    rfl
  rw [hfz]
  unfold stdR
  rw [show listVar [0, 0] = 0 by norm_num [listVar, sqSum, demean, listMean]]
  rw [show ((0 : ℚ) : ℝ) = 0 by norm_num, Real.sqrt_zero]
  norm_num
